import Mathlib

/-!
Verification of the ring-buffer / PLY-export core of the MultiSpaceVideo
point-cloud pages. The numeric helpers are embedded from
`src/app/point/utils/math.ts`, the PLY exporters from
`src/app/point/utils/plyExporter.ts`, the capture-step ring-buffer update
and its initialization from `src/app/point/page.tsx`, and the vertex-shader
frame reordering from the point-cloud vertex shader.

Embedding conventions:
- JavaScript's `%` on numbers is a truncated remainder; it is embedded as
  `Int.tmod` (via `jsRem`).  `Math.floor(a / b)` on integers is `Int.fdiv`.
  GLSL's `mod(x, y) = x - y * floor(x / y)` is `Int.fmod` (via `glslMod`).
- JavaScript numbers appearing in exact coordinate arithmetic are embedded
  as rationals (ℚ); integer index arithmetic as ℤ/ℕ.
- A `Uint8Array` is a total function from indices to byte values; theorems
  that need it carry the hypothesis that its values are `< 256`.
- `DataView.setFloat32` (the IEEE-754 float32 encoding into four bytes) and
  the decimal rendering of a JS number in a template string are
  environment-provided primitives; the exporters are parameterized by them
  (`enc : ℚ → List ℕ` and `fmt : ℚ → String`).
- `TextEncoder().encode` on the ASCII-only PLY headers yields exactly the
  code points, embedded as `textEncode`.
-/

/-- JS remainder operator `%` on integers: truncated remainder. -/
def jsRem (a b : ℤ) : ℤ := Int.tmod a b

/-- GLSL `mod(x, y) = x - y * floor(x / y)` on integer-valued arguments:
flooring remainder. -/
def glslMod (a b : ℤ) : ℤ := Int.fmod a b

/-- JS `Math.floor(a / b)` on integers: flooring division. -/
def jsFloorDiv (a b : ℤ) : ℤ := Int.fdiv a b

/-- `calcHalf(size)` from `utils/math.ts`: the center offset
`(size - 1) / 2`. -/
def calcHalf (size : ℚ) : ℚ := (size - 1) / 2

/-- `calcActualFrameIndex(logicalFrame, writeIndex, totalFrames)` from
`utils/math.ts`: `(writeIndex + logicalFrame) % totalFrames`. -/
def calcActualFrameIndex (logicalFrame writeIndex totalFrames : ℤ) : ℤ :=
  jsRem (writeIndex + logicalFrame) totalFrames

/-- `calcZPosition(frameIndex, totalFrames, spacing)` from `utils/math.ts`:
`(frameIndex - calcHalf(totalFrames)) * spacing`. -/
def calcZPosition (frameIndex totalFrames spacing : ℚ) : ℚ :=
  (frameIndex - calcHalf totalFrames) * spacing

/-- `calcColorDataIndex(frameIndex, pixelIndex, width, height?)` from
`utils/math.ts`.  When `height` is absent (the legacy layout) the result is
`(frameIndex * width + pixelIndex) * 4`, with `width` interpreted as
`pixelsPerFrame`; otherwise `x = pixelIndex % width`,
`y = Math.floor(pixelIndex / width)`, and the result is
`((frameIndex * height + y) * width + x) * 4`. -/
def calcColorDataIndex (frameIndex pixelIndex width : ℤ) (height : Option ℤ) : ℤ :=
  match height with
  | none => (frameIndex * width + pixelIndex) * 4
  | some h =>
      let x := jsRem pixelIndex width
      let y := jsFloorDiv pixelIndex width
      ((frameIndex * h + y) * width + x) * 4

/-- `calcTotalPoints(width, height, frames)` from `utils/math.ts`:
`width * height * frames`. -/
def calcTotalPoints (width height frames : ℤ) : ℤ := width * height * frames

/-- `calcPixelIndex(x, y, width)` from `utils/math.ts`: `y * width + x`. -/
def calcPixelIndex (x y width : ℤ) : ℤ := y * width + x

/-- The ring-buffer reordering in the point-cloud vertex shader:
`adjustedFrame = mod(aFrameIndex - uWriteIndex + uTotalFrames, uTotalFrames)`
(GLSL `mod`). -/
def shaderAdjustedFrame (storedFrameIndex writeIndex totalFrames : ℤ) : ℤ :=
  glslMod (storedFrameIndex - writeIndex + totalFrames) totalFrames

/-! ## PLY export (`utils/plyExporter.ts`) -/

/-- The `PLYExportData` input record of `plyExporter.ts`.  `colorData` is the
RGBA ring buffer (`Uint8Array`), read at integer indices. -/
structure PLYExportData where
  colorData : ℤ → ℕ
  width : ℕ
  height : ℕ
  frames : ℕ
  spacing : ℚ
  writeIndex : ℕ

/-- `TextEncoder().encode` restricted to ASCII-only strings (all PLY headers
are ASCII): the UTF-8 bytes are exactly the code points. -/
def textEncode (s : String) : List ℕ := s.data.map Char.toNat

/-- `createPLYHeaderASCII(totalPoints)` from `plyExporter.ts`. -/
def createPLYHeaderASCII (totalPoints : ℤ) : String :=
  String.intercalate "\n"
    ["ply",
     "format ascii 1.0",
     "element vertex " ++ toString totalPoints,
     "property float x",
     "property float y",
     "property float z",
     "property uchar red",
     "property uchar green",
     "property uchar blue",
     "end_header"] ++ "\n"

/-- `createPLYHeaderBinary(totalPoints)` from `plyExporter.ts`. -/
def createPLYHeaderBinary (totalPoints : ℤ) : String :=
  String.intercalate "\n"
    ["ply",
     "format binary_little_endian 1.0",
     "element vertex " ++ toString totalPoints,
     "property float x",
     "property float y",
     "property float z",
     "property uchar red",
     "property uchar green",
     "property uchar blue",
     "end_header"] ++ "\n"

/-- `createPLYDataASCII(data)` from `plyExporter.ts`, parameterized by the
JS number-to-decimal-string rendering `fmt` used by the template string.
The triple loop (logicalFrame, then y, then x) pushes one
`"x y z r g b"` line per point; the result is
`header + lines.join("\n")`. -/
def createPLYDataASCII (fmt : ℚ → String) (data : PLYExportData) : String :=
  let pixelsPerFrame : ℕ := data.width * data.height
  let totalPoints := calcTotalPoints data.width data.height data.frames
  let xHalf := calcHalf data.width
  let yHalf := calcHalf data.height
  let header := createPLYHeaderASCII totalPoints
  let lines : List String :=
    (List.range data.frames).flatMap (fun (logicalFrame : ℕ) =>
      let actualFrame := calcActualFrameIndex logicalFrame data.writeIndex data.frames
      let zPos := calcZPosition logicalFrame data.frames data.spacing
      (List.range data.height).flatMap (fun (y : ℕ) =>
        let yPos := yHalf - y
        (List.range data.width).map (fun (x : ℕ) =>
          let xPos := (x : ℚ) - xHalf
          let pixelIdx := calcPixelIndex x y data.width
          let colorIdx := calcColorDataIndex actualFrame pixelIdx pixelsPerFrame none
          let r := data.colorData colorIdx
          let g := data.colorData (colorIdx + 1)
          let b := data.colorData (colorIdx + 2)
          fmt xPos ++ " " ++ fmt yPos ++ " " ++ fmt zPos ++ " " ++
            toString r ++ " " ++ toString g ++ " " ++ toString b)))
  header ++ String.intercalate "\n" lines

/-- `createPLYDataBinary(data)` from `plyExporter.ts`, parameterized by the
IEEE-754 float32 little-endian byte encoding `enc` used by
`DataView.setFloat32`.  The same triple loop writes, per point, the three
float32 coordinates followed by the three `setUint8` color bytes (which
truncate modulo 256); the result is the header bytes followed by the data
bytes. -/
def createPLYDataBinary (enc : ℚ → List ℕ) (data : PLYExportData) : List ℕ :=
  let pixelsPerFrame : ℕ := data.width * data.height
  let totalPoints := calcTotalPoints data.width data.height data.frames
  let xHalf := calcHalf data.width
  let yHalf := calcHalf data.height
  let headerBytes := textEncode (createPLYHeaderBinary totalPoints)
  let body : List ℕ :=
    (List.range data.frames).flatMap (fun (logicalFrame : ℕ) =>
      let actualFrame := calcActualFrameIndex logicalFrame data.writeIndex data.frames
      let zPos := calcZPosition logicalFrame data.frames data.spacing
      (List.range data.height).flatMap (fun (y : ℕ) =>
        let yPos := yHalf - y
        (List.range data.width).flatMap (fun (x : ℕ) =>
          let xPos := (x : ℚ) - xHalf
          let pixelIdx := calcPixelIndex x y data.width
          let colorIdx := calcColorDataIndex actualFrame pixelIdx pixelsPerFrame none
          enc xPos ++ enc yPos ++ enc zPos ++
            [data.colorData colorIdx % 256,
             data.colorData (colorIdx + 1) % 256,
             data.colorData (colorIdx + 2) % 256])))
  headerBytes ++ body

/-- A decoded PLY point: exact coordinates and the three color bytes. -/
structure PLYPoint where
  x : ℚ
  y : ℚ
  z : ℚ
  r : ℕ
  g : ℕ
  b : ℕ

/-- The sequence of points both exporters traverse: frame-major, then
row-major (y), then x — the shared loop structure of `createPLYDataASCII`
and `createPLYDataBinary`. -/
def plyPoints (data : PLYExportData) : List PLYPoint :=
  let pixelsPerFrame : ℕ := data.width * data.height
  let xHalf := calcHalf data.width
  let yHalf := calcHalf data.height
  (List.range data.frames).flatMap (fun (logicalFrame : ℕ) =>
    let actualFrame := calcActualFrameIndex logicalFrame data.writeIndex data.frames
    let zPos := calcZPosition logicalFrame data.frames data.spacing
    (List.range data.height).flatMap (fun (y : ℕ) =>
      let yPos := yHalf - y
      (List.range data.width).map (fun (x : ℕ) =>
        let xPos := (x : ℚ) - xHalf
        let pixelIdx := calcPixelIndex x y data.width
        let colorIdx := calcColorDataIndex actualFrame pixelIdx pixelsPerFrame none
        { x := xPos, y := yPos, z := zPos,
          r := data.colorData colorIdx,
          g := data.colorData (colorIdx + 1),
          b := data.colorData (colorIdx + 2) })))

/-- The ASCII data line `"x y z r g b"` of one point, with coordinates
rendered by `fmt`. -/
def plyPointLine (fmt : ℚ → String) (pt : PLYPoint) : String :=
  fmt pt.x ++ " " ++ fmt pt.y ++ " " ++ fmt pt.z ++ " " ++
    toString pt.r ++ " " ++ toString pt.g ++ " " ++ toString pt.b

/-- The 15 binary bytes of one point: three float32 encodings followed by
the three color bytes. -/
def plyPointBytes (enc : ℚ → List ℕ) (pt : PLYPoint) : List ℕ :=
  enc pt.x ++ enc pt.y ++ enc pt.z ++ [pt.r, pt.g, pt.b]

/-! ## Capture-step ring buffer (`src/app/point/page.tsx`) -/

/-- The mutable state the capture loop touches: the ring-buffer write cursor
`writeIndexRef` and the flat RGBA byte buffer `colorDataRef`. -/
structure RingState where
  writeIndex : ℕ
  colorData : ℕ → ℕ

/-- The state set up by `initLivePoints`: `writeIndex = 0` and a zero-filled
color buffer (`colorData.fill(0)`). -/
def initialRingState : RingState where
  writeIndex := 0
  colorData := fun _ => 0

/-- One `processFrame` tick from `page.tsx`, given the freshly captured RGBA
bytes `frame` of the video frame: for `p < pixelsPerFrame`, bytes
`rowOffset + 4p .. rowOffset + 4p + 2` receive the frame's RGB bytes, byte
`rowOffset + 4p + 3` is set to 255, where
`rowOffset = writeIndex * pixelsPerFrame * 4`; all other bytes are
untouched; then `writeIndex = (writeIndex + 1) % targetFrames`. -/
def processFrame (targetW targetH targetFrames : ℕ) (frame : ℕ → ℕ)
    (s : RingState) : RingState :=
  let pixelsPerFrame := targetW * targetH
  let rowOffset := s.writeIndex * pixelsPerFrame * 4
  { writeIndex := (s.writeIndex + 1) % targetFrames
    colorData := fun i =>
      if rowOffset ≤ i ∧ i < rowOffset + pixelsPerFrame * 4 then
        if i % 4 = 3 then 255 else frame (i - rowOffset)
      else s.colorData i }

/-- States reachable by the capture loop: the initial state of
`initLivePoints`, closed under `processFrame` ticks. -/
inductive ReachableRing (targetW targetH targetFrames : ℕ) : RingState → Prop
  | init : ReachableRing targetW targetH targetFrames initialRingState
  | step (frame : ℕ → ℕ) (s : RingState) :
      ReachableRing targetW targetH targetFrames s →
      ReachableRing targetW targetH targetFrames
        (processFrame targetW targetH targetFrames frame s)

/-- The buffer sizes `initLivePoints` allocates when it accepts a
configuration. -/
structure LiveAllocation where
  positionsLength : ℤ
  frameIndicesLength : ℤ
  pixelIndicesLength : ℤ
  colorDataLength : ℤ
  writeIndex : ℤ
deriving DecidableEq

/-- The dimension-validation and allocation skeleton of `initLivePoints`
from `page.tsx`: compute `totalPoints = calcTotalPoints(w, h, frames)`;
if `totalPoints <= 0`, report an error and return `false` (here: `none`)
before any buffer is created; otherwise allocate the position/index arrays
(`totalPoints * 3`, `totalPoints`, `totalPoints` floats), the color ring
buffer (`pixelsPerFrame * targetFrames * 4` bytes), and reset
`writeIndex` to 0. -/
def initLivePoints (targetW targetH targetFrames : ℤ) : Option LiveAllocation :=
  let pixelsPerFrame := targetW * targetH
  let totalPoints := calcTotalPoints targetW targetH targetFrames
  if totalPoints ≤ 0 then none
  else some
    { positionsLength := totalPoints * 3
      frameIndicesLength := totalPoints
      pixelIndicesLength := totalPoints
      colorDataLength := pixelsPerFrame * targetFrames * 4
      writeIndex := 0 }

/-! ## Concrete inputs used by witness theorems -/

/-- A concrete stand-in for the JS decimal rendering of a number. -/
def wFmt : ℚ → String := fun _ => "0"

/-- A concrete stand-in for the float32 little-endian byte encoding. -/
def wEnc : ℚ → List ℕ := fun _ => [0, 0, 0, 0]

/-- A concrete 1×1×2 export input with constant color byte 7. -/
def wData : PLYExportData where
  colorData := fun _ => 7
  width := 1
  height := 1
  frames := 2
  spacing := 1
  writeIndex := 0

/-- A concrete export input with zero frames (zero total points). -/
def wZeroData : PLYExportData where
  colorData := fun _ => 7
  width := 1
  height := 1
  frames := 0
  spacing := 1
  writeIndex := 0

/-! ## Arithmetic helper lemmas -/

/-- A nonnegative integer below twice the modulus reduces in one of two
ways under the Euclidean remainder. -/
lemma emod_two_cases (x t : ℤ) (ht : 0 < t) (h0 : 0 ≤ x) (h2 : x < 2 * t) :
    (x < t ∧ x % t = x) ∨ (t ≤ x ∧ x % t = x - t) := by
  rcases lt_or_le x t with h | h
  · exact Or.inl ⟨h, Int.emod_eq_of_lt h0 h⟩
  · refine Or.inr ⟨h, ?_⟩
    have h4 : (x - t + t * 1) % t = (x - t) % t :=
      Int.add_mul_emod_self_left (x - t) t 1
    have h5 : x - t + t * 1 = x := by ring
    rw [h5] at h4
    rw [h4]
    exact Int.emod_eq_of_lt (by omega) (by omega)

/-- On nonnegative arguments the JS remainder agrees with the Euclidean
remainder, so `calcActualFrameIndex` is `(writeIndex + logicalFrame) mod
totalFrames` in the mathematical sense. -/
lemma calcActualFrameIndex_eq_emod (l w t : ℤ) (hw : 0 ≤ w) (hl : 0 ≤ l)
    (ht : 0 ≤ t) : calcActualFrameIndex l w t = (w + l) % t := by
  unfold calcActualFrameIndex jsRem
  exact Int.tmod_eq_emod (by omega) ht

/-- C1: for `totalFrames > 0`, `writeIndex` and `logicalFrame` in
`[0, totalFrames)`, `calcActualFrameIndex(logicalFrame, writeIndex,
totalFrames)` equals `(writeIndex + logicalFrame) mod totalFrames`; for
fixed `writeIndex` the map `logicalFrame ↦ calcActualFrameIndex(...)` is a
bijection of `[0, totalFrames)` onto itself; and
`calcActualFrameIndex(0, 30, 60) = 30`. -/
theorem calcActualFrameIndex_spec (t w : ℤ) (ht : 0 < t) (hw0 : 0 ≤ w)
    (hwt : w < t) :
    (∀ l : ℤ, 0 ≤ l → l < t → calcActualFrameIndex l w t = (w + l) % t) ∧
    Set.BijOn (fun l => calcActualFrameIndex l w t) (Set.Ico 0 t)
      (Set.Ico 0 t) ∧
    calcActualFrameIndex 0 30 60 = 30 := by
  have key : ∀ l : ℤ, 0 ≤ l → calcActualFrameIndex l w t = (w + l) % t :=
    fun l hl => calcActualFrameIndex_eq_emod l w t hw0 hl (le_of_lt ht)
  refine ⟨fun l hl _ => key l hl, ⟨?_, ?_, ?_⟩, by decide⟩
  · intro l hl
    simp only [Set.mem_Ico] at hl ⊢
    show calcActualFrameIndex l w t ∈ Set.Ico 0 t
    simp only [Set.mem_Ico]
    rw [key l hl.1]
    exact ⟨Int.emod_nonneg _ (by omega), Int.emod_lt_of_pos _ ht⟩
  · intro a ha b hb hab
    simp only [Set.mem_Ico] at ha hb
    have hab2 : calcActualFrameIndex a w t = calcActualFrameIndex b w t := hab
    rw [key a ha.1, key b hb.1] at hab2
    rcases emod_two_cases (w + a) t ht (by omega) (by omega) with ⟨c1, h1⟩ | ⟨c1, h1⟩ <;>
      rcases emod_two_cases (w + b) t ht (by omega) (by omega) with ⟨c2, h2⟩ | ⟨c2, h2⟩ <;>
      rw [h1, h2] at hab2 <;> omega
  · intro m hm
    simp only [Set.mem_Ico] at hm
    rcases le_or_lt w m with h | h
    · refine ⟨m - w, by simp only [Set.mem_Ico]; omega, ?_⟩
      show calcActualFrameIndex (m - w) w t = m
      rw [key _ (by omega)]
      have h5 : w + (m - w) = m := by ring
      rw [h5]
      exact Int.emod_eq_of_lt (by omega) (by omega)
    · refine ⟨m - w + t, by simp only [Set.mem_Ico]; omega, ?_⟩
      show calcActualFrameIndex (m - w + t) w t = m
      rw [key _ (by omega)]
      have h5 : w + (m - w + t) = m + t * 1 := by ring
      rw [h5, Int.add_mul_emod_self_left]
      exact Int.emod_eq_of_lt (by omega) (by omega)

/-- C1 witness: the spec example `calcActualFrameIndex(0, 30, 60) = 30`,
obtained from `calcActualFrameIndex_spec` at `totalFrames = 60`,
`writeIndex = 30`. -/
theorem calcActualFrameIndex_spec_witness : calcActualFrameIndex 0 30 60 = 30 :=
  (calcActualFrameIndex_spec 60 30 (by decide) (by decide) (by decide)).2.2

/-- C2: the vertex shader's reordering
`adjustedFrame = mod(storedFrameIndex - writeIndex + totalFrames,
totalFrames)` inverts the ring-buffer index map: applied to
`storedFrameIndex = calcActualFrameIndex(logicalFrame, writeIndex,
totalFrames)` it returns `logicalFrame`, for `totalFrames > 0` and
`writeIndex`, `logicalFrame` in `[0, totalFrames)`. -/
theorem shaderAdjustedFrame_inverts_ringBuffer (t w l : ℤ) (ht : 0 < t)
    (hw0 : 0 ≤ w) (hwt : w < t) (hl0 : 0 ≤ l) (hlt : l < t) :
    shaderAdjustedFrame (calcActualFrameIndex l w t) w t = l := by
  rw [calcActualFrameIndex_eq_emod l w t hw0 hl0 (le_of_lt ht)]
  unfold shaderAdjustedFrame glslMod
  rw [Int.fmod_eq_emod _ (by omega)]
  rcases emod_two_cases (w + l) t ht (by omega) (by omega) with ⟨c, h⟩ | ⟨c, h⟩
  · rw [h]
    have h5 : w + l - w + t = l + t * 1 := by ring
    rw [h5, Int.add_mul_emod_self_left]
    exact Int.emod_eq_of_lt hl0 hlt
  · rw [h]
    have h5 : w + l - t - w + t = l := by ring
    rw [h5]
    exact Int.emod_eq_of_lt hl0 hlt

/-- C2 witness: with 60 frames and write cursor 30, logical frame 5 round
trips through the stored index and the shader formula. -/
theorem shaderAdjustedFrame_inverts_ringBuffer_witness :
    shaderAdjustedFrame (calcActualFrameIndex 5 30 60) 30 60 = 5 :=
  shaderAdjustedFrame_inverts_ringBuffer 60 30 5 (by decide) (by decide)
    (by decide) (by decide) (by decide)

/-- C8: with `totalFrames = 1` the ring buffer is a single continuously
overwritten slot: every `processFrame` tick leaves the write cursor at 0
(`(writeIndex + 1) mod 1 = 0`), and every `writeIndex` makes the unique
logical frame 0 read slot 0 (`calcActualFrameIndex(0, writeIndex, 1) = 0`). -/
theorem totalFrames_one_degenerates :
    (∀ (targetW targetH : ℕ) (frame : ℕ → ℕ) (s : RingState),
        (processFrame targetW targetH 1 frame s).writeIndex = 0) ∧
    (∀ w : ℤ, calcActualFrameIndex 0 w 1 = 0) := by
  constructor
  · intro targetW targetH frame s
    show (s.writeIndex + 1) % 1 = 0
    exact Nat.mod_one _
  · intro w
    show Int.tmod (w + 0) 1 = 0
    rw [add_zero]
    exact Int.tmod_one w

/-- C9: on in-range inputs (`width > 0`, `height > 0`, `frameIndex ≥ 0`,
`0 ≤ pixelIndex < width * height`) the two texture layouts of
`calcColorDataIndex` agree, and both equal
`(frameIndex * width * height + pixelIndex) * 4`. -/
theorem calcColorDataIndex_layouts_agree (f p w h : ℤ) (hw : 0 < w)
    (hh : 0 < h) (hf : 0 ≤ f) (hp0 : 0 ≤ p) (hp : p < w * h) :
    calcColorDataIndex f p w (some h) = calcColorDataIndex f p (w * h) none ∧
    calcColorDataIndex f p (w * h) none = (f * (w * h) + p) * 4 := by
  refine ⟨?_, rfl⟩
  show ((f * h + jsFloorDiv p w) * w + jsRem p w) * 4 = (f * (w * h) + p) * 4
  unfold jsFloorDiv jsRem
  rw [Int.tmod_eq_emod hp0 (by omega), Int.fdiv_eq_ediv _ (by omega)]
  have hdm : w * (p / w) + p % w = p := Int.ediv_add_emod p w
  linear_combination (4 : ℤ) * hdm

/-- C9 witness: frame 1, pixel 4 of a 3×2 frame: both layouts give the same
color index. -/
theorem calcColorDataIndex_layouts_agree_witness :
    calcColorDataIndex 1 4 3 (some 2) = calcColorDataIndex 1 4 (3 * 2) none :=
  (calcColorDataIndex_layouts_agree 1 4 3 2 (by decide) (by decide) (by decide)
    (by decide) (by decide)).1

/-- C6 counterexample: the configuration `targetW = -1`, `targetH = -1`,
`targetFrames = 1` has a dimension `≤ 0`, yet `initLivePoints` does not
reject it — the guard only tests the product
`totalPoints = (-1) × (-1) × 1 = 1 > 0`, so buffers are allocated. -/
theorem initLivePoints_accepts_two_negative_dims :
    ((-1 : ℤ) ≤ 0) ∧ (initLivePoints (-1) (-1) 1).isSome = true := by
  exact ⟨by decide, by decide⟩

/-- C6 (amended): `initLivePoints` rejects, before allocating anything,
exactly the configurations whose product `width × height × frames` is
`≤ 0`; this covers every configuration with a zero dimension or an odd
number of negative dimensions, but not two negative dimensions. -/
theorem initLivePoints_rejects_nonpositive_totalPoints (w h f : ℤ)
    (hyp : calcTotalPoints w h f ≤ 0) : initLivePoints w h f = none := by
  unfold initLivePoints
  simp only [if_pos hyp]

/-- C6 witness: a zero width is rejected with no allocation. -/
theorem initLivePoints_rejects_nonpositive_totalPoints_witness :
    initLivePoints 0 5 5 = none :=
  initLivePoints_rejects_nonpositive_totalPoints 0 5 5 (by decide)

/-! ## Ring-buffer capture-step invariant -/

/-- Every reachable capture-loop state keeps its write cursor inside the
ring. -/
lemma reachableRing_writeIndex_lt (targetW targetH targetFrames : ℕ)
    (hT : 0 < targetFrames) (s : RingState)
    (hs : ReachableRing targetW targetH targetFrames s) :
    s.writeIndex < targetFrames := by
  induction hs with
  | init => exact hT
  | step frame s hs ih =>
    show (s.writeIndex + 1) % targetFrames < targetFrames
    exact Nat.mod_lt _ hT

/-- C3: from `writeIndex = 0`, every reachable capture-loop state satisfies
`writeIndex < totalFrames`, and a `processFrame` tick (i) advances the
cursor to `(writeIndex + 1) mod totalFrames`, (ii) leaves every byte
outside the slot `[writeIndex·pixelsPerFrame·4,
writeIndex·pixelsPerFrame·4 + pixelsPerFrame·4)` unchanged, and (iii)
writes exactly the captured frame's bytes into that slot (RGB copied,
alpha forced to 255) — so `writeIndex` is always the next slot to be
overwritten. -/
theorem processFrame_ring_invariant (targetW targetH targetFrames : ℕ)
    (hT : 0 < targetFrames) (s : RingState)
    (hs : ReachableRing targetW targetH targetFrames s) (frame : ℕ → ℕ) :
    s.writeIndex < targetFrames ∧
    (processFrame targetW targetH targetFrames frame s).writeIndex =
      (s.writeIndex + 1) % targetFrames ∧
    (∀ i, i < s.writeIndex * (targetW * targetH) * 4 ∨
        s.writeIndex * (targetW * targetH) * 4 + targetW * targetH * 4 ≤ i →
      (processFrame targetW targetH targetFrames frame s).colorData i =
        s.colorData i) ∧
    (∀ p k, p < targetW * targetH → k < 4 →
      (processFrame targetW targetH targetFrames frame s).colorData
          (s.writeIndex * (targetW * targetH) * 4 + p * 4 + k) =
        if k = 3 then 255 else frame (p * 4 + k)) := by
  refine ⟨reachableRing_writeIndex_lt targetW targetH targetFrames hT s hs,
    rfl, ?_, ?_⟩
  · intro i hi
    show (if s.writeIndex * (targetW * targetH) * 4 ≤ i ∧
          i < s.writeIndex * (targetW * targetH) * 4 + targetW * targetH * 4 then
        if i % 4 = 3 then 255
        else frame (i - s.writeIndex * (targetW * targetH) * 4)
      else s.colorData i) = s.colorData i
    rw [if_neg (by omega)]
  · intro p k hp hk
    show (if s.writeIndex * (targetW * targetH) * 4 ≤
            s.writeIndex * (targetW * targetH) * 4 + p * 4 + k ∧
          s.writeIndex * (targetW * targetH) * 4 + p * 4 + k <
            s.writeIndex * (targetW * targetH) * 4 + targetW * targetH * 4 then
        if (s.writeIndex * (targetW * targetH) * 4 + p * 4 + k) % 4 = 3 then 255
        else frame (s.writeIndex * (targetW * targetH) * 4 + p * 4 + k -
          s.writeIndex * (targetW * targetH) * 4)
      else s.colorData (s.writeIndex * (targetW * targetH) * 4 + p * 4 + k)) =
      if k = 3 then 255 else frame (p * 4 + k)
    rw [if_pos (by constructor <;> omega)]
    have h4 : (s.writeIndex * (targetW * targetH) * 4 + p * 4 + k) % 4 = k := by
      omega
    have h5 : s.writeIndex * (targetW * targetH) * 4 + p * 4 + k -
        s.writeIndex * (targetW * targetH) * 4 = p * 4 + k := by omega
    rw [h4, h5]

/-- C3 witness: one tick on a fresh 1×1×2 buffer advances the cursor from
0 to 1. -/
theorem processFrame_ring_invariant_witness :
    (processFrame 1 1 2 (fun i => i) initialRingState).writeIndex = (0 + 1) % 2 :=
  (processFrame_ring_invariant 1 1 2 (by decide) initialRingState
    ReachableRing.init (fun i => i)).2.1

/-! ## PLY exporter lemmas -/

/-- The sum of a constant-valued map. -/
lemma sum_map_const {α : Type} (l : List α) (c : ℕ) :
    (l.map (fun _ => c)).sum = l.length * c := by
  induction l with
  | nil => simp
  | cons a l ih => simp [ih]; ring

/-- Length of a `flatMap` whose pieces all have length `c`. -/
lemma flatMap_const_length {α β : Type} (l : List α) (F : α → List β) (c : ℕ)
    (h : ∀ a ∈ l, (F a).length = c) :
    (l.flatMap F).length = l.length * c := by
  have hm : l.map (List.length ∘ F) = l.map (fun _ => c) :=
    List.map_congr_left (fun a ha => h a ha)
  rw [List.length_flatMap, hm, sum_map_const]

/-- `createPLYDataASCII` is the ASCII header followed by the
newline-joined rendered lines of the common point sequence `plyPoints`. -/
lemma createPLYDataASCII_decomp (fmt : ℚ → String) (d : PLYExportData) :
    createPLYDataASCII fmt d =
      createPLYHeaderASCII (calcTotalPoints d.width d.height d.frames) ++
        String.intercalate "\n" ((plyPoints d).map (plyPointLine fmt)) := by
  unfold createPLYDataASCII plyPoints
  simp only [List.map_flatMap, List.map_map]
  rfl

/-- `createPLYDataBinary` is the encoded binary header followed by, per
point of the common sequence `plyPoints`, the three float32 encodings and
the three `setUint8`-truncated color bytes. -/
lemma createPLYDataBinary_decomp (enc : ℚ → List ℕ) (d : PLYExportData) :
    createPLYDataBinary enc d =
      textEncode (createPLYHeaderBinary
        (calcTotalPoints d.width d.height d.frames)) ++
        (plyPoints d).flatMap (fun pt =>
          enc pt.x ++ enc pt.y ++ enc pt.z ++
            [pt.r % 256, pt.g % 256, pt.b % 256]) := by
  unfold createPLYDataBinary plyPoints
  simp only [List.flatMap_assoc, List.flatMap_map]

/-- `plyPoints` has exactly `width * height * frames` entries. -/
lemma plyPoints_length (d : PLYExportData) :
    (plyPoints d).length = d.width * d.height * d.frames := by
  unfold plyPoints
  refine (flatMap_const_length _ _ (d.height * d.width) ?_).trans ?_
  · intro lf hlf
    refine (flatMap_const_length _ _ d.width ?_).trans ?_
    · intro y hy
      rw [List.length_map, List.length_range]
    · rw [List.length_range]
  · rw [List.length_range]; ring

/-- Every point produced by `plyPoints` carries color bytes read from
`colorData`, hence below 256 when the buffer is byte-valued. -/
lemma plyPoints_bytes_lt (d : PLYExportData)
    (hbytes : ∀ i, d.colorData i < 256) :
    ∀ pt ∈ plyPoints d, pt.r < 256 ∧ pt.g < 256 ∧ pt.b < 256 := by
  intro pt hpt
  unfold plyPoints at hpt
  simp only [List.mem_flatMap, List.mem_map, List.mem_range] at hpt
  obtain ⟨lf, hlf, y, hy, x, hx, rfl⟩ := hpt
  exact ⟨hbytes _, hbytes _, hbytes _⟩

/-- C4: for byte-valued `colorData` and `writeIndex` in `[0, frames)`, the
ASCII and binary exporters encode the same sequence of points in the same
frame-major, row-major order: both outputs are their header followed by
the common point sequence `plyPoints`, the ASCII one rendering each point
as an `"x y z r g b"` line, the binary one encoding the same exact
coordinates through the float32 encoding `enc` and emitting the identical
`r`, `g`, `b` bytes. -/
theorem createPLY_ascii_binary_same_points (fmt : ℚ → String)
    (enc : ℚ → List ℕ) (d : PLYExportData) (hwidth : 0 < d.width)
    (hheight : 0 < d.height) (hframes : 0 < d.frames)
    (hwI : d.writeIndex < d.frames) (hbytes : ∀ i, d.colorData i < 256) :
    createPLYDataASCII fmt d =
      createPLYHeaderASCII (calcTotalPoints d.width d.height d.frames) ++
        String.intercalate "\n" ((plyPoints d).map (plyPointLine fmt)) ∧
    createPLYDataBinary enc d =
      textEncode (createPLYHeaderBinary
        (calcTotalPoints d.width d.height d.frames)) ++
        (plyPoints d).flatMap (plyPointBytes enc) := by
  refine ⟨createPLYDataASCII_decomp fmt d, ?_⟩
  rw [createPLYDataBinary_decomp enc d]
  congr 1
  apply List.flatMap_congr
  intro pt hpt
  obtain ⟨h1, h2, h3⟩ := plyPoints_bytes_lt d hbytes pt hpt
  unfold plyPointBytes
  rw [Nat.mod_eq_of_lt h1, Nat.mod_eq_of_lt h2, Nat.mod_eq_of_lt h3]

/-- C4 witness: on the concrete 1×1×2 input the binary export is the
header bytes followed by the `plyPointBytes` encodings of the common
point sequence. -/
theorem createPLY_ascii_binary_same_points_witness :
    createPLYDataBinary wEnc wData =
      textEncode (createPLYHeaderBinary
        (calcTotalPoints wData.width wData.height wData.frames)) ++
        (plyPoints wData).flatMap (plyPointBytes wEnc) :=
  (createPLY_ascii_binary_same_points wFmt wEnc wData (by decide) (by decide)
    (by decide) (by decide) (fun i => by norm_num [wData])).2

/-- C5: the binary export is exactly the UTF-8 byte length of its header
plus `totalPoints × 15` bytes, where
`totalPoints = calcTotalPoints(width, height, frames) = width × height ×
frames`, provided each float32 encoding is four bytes. -/
theorem createPLYDataBinary_byte_size (enc : ℚ → List ℕ) (d : PLYExportData)
    (hlen : ∀ q, (enc q).length = 4) :
    (createPLYDataBinary enc d).length =
      (textEncode (createPLYHeaderBinary
        (calcTotalPoints d.width d.height d.frames))).length +
        d.width * d.height * d.frames * 15 ∧
    calcTotalPoints d.width d.height d.frames =
      ((d.width * d.height * d.frames : ℕ) : ℤ) := by
  refine ⟨?_, by unfold calcTotalPoints; push_cast; ring⟩
  rw [createPLYDataBinary_decomp enc d, List.length_append]
  congr 1
  refine (flatMap_const_length _ _ 15 ?_).trans ?_
  · intro pt hpt
    simp [hlen]
  · rw [plyPoints_length]

/-- C5 witness: on the concrete 1×1×2 input with a 4-byte encoder, the
binary export is the header length plus 2 × 15 bytes. -/
theorem createPLYDataBinary_byte_size_witness :
    (createPLYDataBinary wEnc wData).length =
      (textEncode (createPLYHeaderBinary
        (calcTotalPoints wData.width wData.height wData.frames))).length +
        wData.width * wData.height * wData.frames * 15 :=
  (createPLYDataBinary_byte_size wEnc wData (fun q => rfl)).1

/-- C7: the ASCII export is the ten header lines "ply",
"format ascii 1.0", "element vertex totalPoints", the six property lines
and "end_header", joined by newlines, followed by exactly
`totalPoints = width × height × frames` data lines, each an
`"x y z r g b"` rendering of one point. -/
theorem createPLYDataASCII_structure (fmt : ℚ → String) (d : PLYExportData) :
    createPLYDataASCII fmt d =
      createPLYHeaderASCII (calcTotalPoints d.width d.height d.frames) ++
        String.intercalate "\n" ((plyPoints d).map (plyPointLine fmt)) ∧
    createPLYHeaderASCII (calcTotalPoints d.width d.height d.frames) =
      String.intercalate "\n"
        ["ply",
         "format ascii 1.0",
         "element vertex " ++
           toString (calcTotalPoints d.width d.height d.frames),
         "property float x",
         "property float y",
         "property float z",
         "property uchar red",
         "property uchar green",
         "property uchar blue",
         "end_header"] ++ "\n" ∧
    ((plyPoints d).map (plyPointLine fmt)).length =
      d.width * d.height * d.frames :=
  ⟨createPLYDataASCII_decomp fmt d, rfl,
    by rw [List.length_map, plyPoints_length]⟩

/-- C10: when `calcTotalPoints(width, height, frames) = 0`, the ASCII
export is exactly the header declaring zero vertices with no data lines,
and the binary export is exactly the encoded header bytes with an empty
data section. -/
theorem createPLY_zero_points (fmt : ℚ → String) (enc : ℚ → List ℕ)
    (d : PLYExportData)
    (htp : calcTotalPoints d.width d.height d.frames = 0) :
    createPLYDataASCII fmt d = createPLYHeaderASCII 0 ∧
    createPLYDataBinary enc d = textEncode (createPLYHeaderBinary 0) := by
  have hn : d.width * d.height * d.frames = 0 := by
    unfold calcTotalPoints at htp
    exact_mod_cast htp
  have hpts : plyPoints d = [] :=
    List.length_eq_zero.mp (by rw [plyPoints_length, hn])
  constructor
  · rw [createPLYDataASCII_decomp fmt d, htp, hpts]
    have hmap : (([] : List PLYPoint).map (plyPointLine fmt)) = [] := rfl
    have hic : String.intercalate "\n" ([] : List String) = "" := rfl
    rw [hmap, hic, String.append_empty]
  · rw [createPLYDataBinary_decomp enc d, htp, hpts]
    have hfm : (([] : List PLYPoint).flatMap (fun pt =>
        enc pt.x ++ enc pt.y ++ enc pt.z ++
          [pt.r % 256, pt.g % 256, pt.b % 256])) = [] := rfl
    rw [hfm, List.append_nil]

/-- C10 witness: with zero frames the ASCII export is exactly the
zero-vertex header. -/
theorem createPLY_zero_points_witness :
    createPLYDataASCII wFmt wZeroData = createPLYHeaderASCII 0 :=
  (createPLY_zero_points wFmt wEnc wZeroData (by decide)).1
